import Mathlib

/-!
Verification of the EchoChamber WebSocket relay server.

This file gives a shallow embedding, in Lean, of the parts of the source that
the checked claims are about:

* `src/wsFrameUtils.js` — RFC 6455 frame-header codec (`readFrameHeader`,
  `writeFrameHeader`), including the JavaScript semantics of `>>> 32`
  (shift count is taken mod 32, so `x >>> 32 = ToUint32(x)`) and Node's
  range validation in `Buffer.writeUInt32BE`.
* `src/WebSocketConnection.js` — payload unmasking loop of
  `_processNextFrameChunk` (cursor arithmetic `mask[(p + i) & 3]`, cursor
  advanced mod 4 across chunks), and `sendFrame`.
* `src/OutputQueue.js` — queue state, `_handle`, `_consumeQueue` (the rewind
  loop), `addFrame` with its capacity loop, `abortCurrent`, `removeSender`,
  `closeSender`.  Queue items are created as the two-field object
  `{sender, info}` (addFrame line 87), which matters because `queueDataBytes`
  and `closeSender` read `item.data` / `item.fin` on those items.
* `src/EchoChamber.js` — `targetComparator`, `Chamber._pickOneTarget`,
  `Chamber.add`, `Chamber._parseHeader` (target-set policy).

Effects are modelled as explicit state plus event traces; JavaScript failure
modes (thrown `TypeError` / `RangeError` / `Error`) are modelled with
`Except`.
-/

/-- A JavaScript value passed as the `data` argument of `sendFrame` /
`addFrame`: `null`, a number (length-only write), a UTF-8 string, or a
`Buffer` of bytes. -/
inductive JsData
  | null
  | num (n : Nat)
  | str (s : String)
  | buf (bytes : List Nat)
  deriving DecidableEq, Repr

/-- The payload length `sendFrame` computes from its `data` argument:
`0` for `null`, the number itself for a number, `Buffer.byteLength(data)`
for a string, `data.length` for a buffer. -/
def dataLen : JsData → Nat
  | .null => 0
  | .num n => n
  | .str s => s.utf8ByteSize
  | .buf bytes => bytes.length

/-- Errors thrown by the modelled JavaScript code. -/
inductive JsErr
  | typeErr   -- TypeError, e.g. reading `.length` of `undefined`
  | rangeErr  -- RangeError from Node Buffer write validation
  | tooLong   -- `new Error("Message too long for command frame")`
  | fuelOut   -- fuel exhaustion marker for the modelled `while` loop
  deriving DecidableEq, Repr

/- ## wsFrameUtils.js -/

/-- Big-endian 16-bit read at offset `i` (`data.readUInt16BE(i)`); offsets are
in range whenever the source calls this, so out-of-range bytes default to 0. -/
def readUInt16BE (data : List Nat) (i : Nat) : Nat :=
  data.getD i 0 * 256 + data.getD (i + 1) 0

/-- Big-endian 32-bit read at offset `i` (`data.readUInt32BE(i)`). -/
def readUInt32BE (data : List Nat) (i : Nat) : Nat :=
  ((data.getD i 0 * 256 + data.getD (i + 1) 0) * 256 + data.getD (i + 2) 0) * 256
    + data.getD (i + 3) 0

/-- Big-endian 16-bit write (`writeUInt16BE`), emitted as two bytes; the
source only reaches it with values below 2^16. -/
def writeUInt16BE (v : Nat) : List Nat :=
  [v / 256 % 256, v % 256]

/-- Big-endian 32-bit write (`writeUInt32BE`).  Node validates the value and
throws a RangeError when it exceeds `0xFFFFFFFF`. -/
def writeUInt32BE (v : Nat) : Except JsErr (List Nat) :=
  if v > 0xFFFFFFFF then .error .rangeErr
  else .ok [v / 2 ^ 24 % 256, v / 2 ^ 16 % 256, v / 2 ^ 8 % 256, v % 256]

/-- JavaScript `x >>> n` for a non-negative `x`: both operands are converted
to 32-bit, and the shift count is taken modulo 32 (so `x >>> 32` is
`ToUint32(x)`, not zero). -/
def jsShrU (x n : Nat) : Nat :=
  (x % 2 ^ 32) >>> (n % 32)

/-- Parsed frame header, as returned by `readFrameHeader`. -/
structure FrameHeader where
  fin : Bool
  rsv1 : Bool
  rsv2 : Bool
  rsv3 : Bool
  isCommand : Bool
  opcode : Nat
  lengthH : Nat
  lengthL : Nat
  mask : Option (List Nat)
  headerSize : Nat
  deriving DecidableEq, Repr

/-- `readFrameHeader(data)` from `wsFrameUtils.js`: returns `none` ("wait for
more data") when fewer than 2 bytes are present or the computed header length
exceeds the available bytes. -/
def readFrameHeader (data : List Nat) : Option FrameHeader :=
  if data.length < 2 then none
  else
    let b0 := data.getD 0 0
    let b1 := data.getD 1 0
    let fin := b0 &&& 0x80 ≠ 0
    let rsv1 := b0 &&& 0x40 ≠ 0
    let rsv2 := b0 &&& 0x20 ≠ 0
    let rsv3 := b0 &&& 0x10 ≠ 0
    let opcode := b0 &&& 0x0F
    let hasMask := b1 &&& 0x80 ≠ 0
    let lengthL0 := b1 &&& 0x7F
    let extraLength := if lengthL0 = 127 then 8 else if lengthL0 = 126 then 2 else 0
    let headerSize := 2 + extraLength + (if hasMask then 4 else 0)
    if data.length < headerSize then none
    else
      let lengthL :=
        if lengthL0 = 126 then readUInt16BE data 2
        else if lengthL0 = 127 then readUInt32BE data 6
        else lengthL0
      let lengthH := if lengthL0 = 127 then readUInt32BE data 2 else 0
      let mask := if hasMask then some ((data.drop (2 + extraLength)).take 4) else none
      some {
        fin := fin
        rsv1 := rsv1
        rsv2 := rsv2
        rsv3 := rsv3
        isCommand := opcode &&& 0x08 ≠ 0
        opcode := opcode
        lengthH := lengthH
        lengthL := lengthL
        mask := mask
        headerSize := headerSize
      }

/-- `writeFrameHeader(socket, opcode, dataLength, fin)` from
`wsFrameUtils.js`, as the byte list written to the socket.  The 64-bit branch
writes `dataLength >>> 32` (a JavaScript no-op modulo 2^32) then `dataLength`
itself, each through the range-validated `writeUInt32BE`. -/
def writeFrameHeader (opcode : Nat) (dataLength : Nat) (fin : Bool) :
    Except JsErr (List Nat) :=
  let b0 := (if fin then 0x80 else 0x00) ||| opcode
  if dataLength < 126 then
    .ok [b0, dataLength]
  else if dataLength < 0x10000 then
    .ok ([b0, 126] ++ writeUInt16BE dataLength)
  else do
    let hi ← writeUInt32BE (jsShrU dataLength 32)
    let lo ← writeUInt32BE dataLength
    return [b0, 127] ++ hi ++ lo

/- ## WebSocketConnection.js — unmasking loop -/

/-- One pass of the unmask loop in `_processNextFrameChunk`, unrolled from
loop index `i`: byte `i` of the chunk is XORed with `mask[(p + i) & 3]`. -/
def unmaskChunkAux (mask : List Nat) (p : Nat) : Nat → List Nat → List Nat
  | _, [] => []
  | i, b :: rest => (b ^^^ mask.getD ((p + i) % 4) 0) :: unmaskChunkAux mask p (i + 1) rest

/-- The unmask loop of `_processNextFrameChunk` applied to one chunk with
mask cursor `p` (`frameData[i] ^= mask[(p + i) & 3]`). -/
def unmaskChunk (mask : List Nat) (p : Nat) (chunk : List Nat) : List Nat :=
  unmaskChunkAux mask p 0 chunk

/-- Processing a frame's payload split into chunks: each chunk is unmasked at
the current cursor, then the cursor advances by the chunk length modulo 4
(`this.frameMaskPos = (p + bytesAvailable) & 3`). -/
def unmaskChunks (mask : List Nat) (p : Nat) : List (List Nat) → List Nat
  | [] => []
  | c :: cs => unmaskChunk mask p c ++ unmaskChunks mask ((p + c.length) % 4) cs

/- ## WebSocketConnection.js — sendFrame -/

/-- A write observed on the TCP socket: raw header bytes, or the payload
value handed to `socket.write(data, "utf8")`. -/
inductive SockWrite
  | bytes (bs : List Nat)
  | payload (d : JsData)
  deriving DecidableEq, Repr

/-- `WebSocketConnection.sendFrame(opcode, data, fin)`: no-op when closed;
throws when a command frame (`opcode & 0x08`) carries more than 125 bytes;
otherwise writes the frame header then the payload (numbers are length-only
writes, with no payload following). -/
def sendFrame (closed : Bool) (opcode : Nat) (data : JsData) (fin : Bool) :
    Except JsErr (List SockWrite) :=
  if closed then .ok []
  else
    let len := dataLen data
    if opcode &&& 0x08 ≠ 0 ∧ len > 125 then .error .tooLong
    else
      match writeFrameHeader opcode len fin with
      | .error e => .error e
      | .ok hb =>
        match data with
        | .null => .ok [.bytes hb]
        | .num _ => .ok [.bytes hb]
        | .str s => .ok [.bytes hb, .payload (.str s)]
        | .buf bs => .ok [.bytes hb, .payload (.buf bs)]

/- ## OutputQueue.js -/

/-- The `info` object built by `Chamber.receivePart` / `OutputQueue.add` and
handed to `OutputQueue.addFrame`: `{data, opcode, continuation, fin}`. -/
structure FrameInfo where
  data : JsData
  opcode : Nat
  continuation : Bool
  fin : Bool
  deriving DecidableEq, Repr

/-- A queued entry.  `addFrame` pushes the two-field object
`this.queue.push({sender, info})`, so a queue item has exactly the fields
`sender` and `info`. -/
structure QueueItem where
  sender : String
  info : FrameInfo
  deriving DecidableEq, Repr

/-- JavaScript property read `item.data` on a queue item: the item was
constructed as `{sender, info}` and has no `data` field, so the read yields
`undefined` (`none`). -/
def QueueItem.dataProp (_ : QueueItem) : Option JsData := none

/-- JavaScript property read `item.fin` on a queue item: the item was
constructed as `{sender, info}` and has no `fin` field, so the read yields
`undefined` (`none`). -/
def QueueItem.finProp (_ : QueueItem) : Option Bool := none

/-- JavaScript truthiness of a possibly-`undefined` boolean. -/
def jsTruthy : Option Bool → Bool
  | none => false
  | some b => b

/-- A call to `this.connection.sendFrame(opcode, data, fin)` made by the
queue. -/
structure SendEv where
  opcode : Nat
  data : JsData
  fin : Bool
  deriving DecidableEq, Repr

/-- The two limits of `OutputQueue` (`MAX_QUEUE_ITEMS`, `MAX_QUEUE_DATA`). -/
structure Limits where
  maxQueueItems : Nat
  maxQueueData : Nat
  deriving DecidableEq, Repr

/-- `OutputQueue` state: the single active sender and the waiting queue. -/
structure OQ where
  activeSender : Option String
  queue : List QueueItem
  deriving DecidableEq, Repr

/-- `OutputQueue._canSendFrom(sender)`. -/
def canSendFrom (active : Option String) (sender : String) : Bool :=
  active.isNone || active == some sender

/-- `OutputQueue._handle(sender, {data, opcode, continuation, fin})`: returns
the new active sender, the frames written, and the boolean result (whether a
message from a previously active sender just completed).  A continuation
arriving with no active sender is silently discarded. -/
def handleFrame (active : Option String) (sender : String) (info : FrameInfo) :
    Option String × List SendEv × Bool :=
  let hadActive := active.isSome
  if !hadActive && info.continuation then
    (active, [], false)
  else
    let ev : SendEv :=
      { opcode := if info.continuation then 0x00 else info.opcode
        data := info.data
        fin := info.fin }
    if info.fin then (none, [ev], hadActive)
    else (some sender, [ev], false)

/-- Result of one pass of the `for` loop inside `_consumeQueue`: the final
active sender, the items left in the queue, whether `skip` survived to the
end of the pass (forcing a rewind), and the frames written. -/
structure PassResult where
  active : Option String
  kept : List QueueItem
  skip : Bool
  evs : List SendEv

/-- One pass of `_consumeQueue`'s `for` loop.  `allPrev` tracks whether every
earlier item was handled (the source's `del === i`), which suppresses the
rewind when a message completes with nothing left in front of it. -/
def consumePass (active : Option String) (allPrev : Bool) :
    List QueueItem → PassResult
  | [] => ⟨active, [], false, []⟩
  | it :: rest =>
    if canSendFrom active it.sender then
      match handleFrame active it.sender it.info with
      | (a', evs, completed) =>
        if completed && !allPrev then
          ⟨a', rest, true, evs⟩
        else
          let r := consumePass a' allPrev rest
          ⟨r.active, r.kept, r.skip, evs ++ r.evs⟩
    else
      let r := consumePass active false rest
      ⟨r.active, it :: r.kept, r.skip, r.evs⟩

theorem consumePass_kept_le (active : Option String) (allPrev : Bool)
    (items : List QueueItem) :
    (consumePass active allPrev items).kept.length ≤ items.length := by
  induction items generalizing active allPrev with
  | nil => simp [consumePass]
  | cons it rest ih =>
    simp only [consumePass]
    by_cases hc : canSendFrom active it.sender
    · simp only [hc, if_true]
      rcases hh : handleFrame active it.sender it.info with ⟨a', evs, completed⟩
      by_cases hs : completed && !allPrev
      · simp [hs]
      · simpa [hs] using Nat.le_succ_of_le (ih a' allPrev)
    · simpa [hc] using Nat.succ_le_succ (ih active false)

theorem consumePass_skip_lt (active : Option String) (allPrev : Bool)
    (items : List QueueItem)
    (h : (consumePass active allPrev items).skip = true) :
    (consumePass active allPrev items).kept.length < items.length := by
  induction items generalizing active allPrev with
  | nil => simp [consumePass] at h
  | cons it rest ih =>
    simp only [consumePass] at h ⊢
    by_cases hc : canSendFrom active it.sender
    · simp only [hc, if_true] at h ⊢
      rcases hh : handleFrame active it.sender it.info with ⟨a', evs, completed⟩
      simp only [hh] at h ⊢
      by_cases hs : completed && !allPrev
      · simp [hs]
      · simp only [hs, if_false] at h ⊢
        exact Nat.lt_succ_of_lt (ih a' allPrev h)
    · simp only [hc, if_false] at h ⊢
      exact Nat.succ_lt_succ (ih active false h)

/-- Result of `_consumeQueue`. -/
structure ConsumeResult where
  active : Option String
  queue : List QueueItem
  evs : List SendEv

/-- `OutputQueue._consumeQueue()`: repeat the pass while `skip` requests a
rewind.  Terminates because a pass ending with `skip` has removed at least
one item. -/
def consumeQueue (active : Option String) (items : List QueueItem) :
    ConsumeResult :=
  let r := consumePass active true items
  if hs : r.skip then
    have : r.kept.length < items.length := consumePass_skip_lt active true items hs
    let r2 := consumeQueue r.active r.kept
    ⟨r2.active, r2.queue, r.evs ++ r2.evs⟩
  else
    ⟨r.active, r.kept, r.evs⟩
termination_by items.length

/-- `OutputQueue.abortCurrent()`: if a message is in flight, write a
zero-length continuation with `fin`, then a single-frame text message `"X"`,
clear the active sender and resume queue consumption. -/
def abortCurrent (st : OQ) : OQ × List SendEv :=
  match st.activeSender with
  | none => (st, [])
  | some _ =>
    let r := consumeQueue none st.queue
    (⟨r.active, r.queue⟩,
      ⟨0x00, .null, true⟩ :: ⟨0x01, .str "X", true⟩ :: r.evs)

/-- `queueDataBytes(queue)`: sums `item.data.length` over the queue.  Queue
items are `{sender, info}` objects, so `item.data` is `undefined` and the
`.length` read throws a TypeError on any non-empty queue. -/
def queueDataBytes (queue : List QueueItem) : Except JsErr Nat :=
  queue.foldlM
    (fun size it =>
      match it.dataProp with
      | none => .error .typeErr
      | some d => .ok (size + dataLen d))
    0

/-- `queueBeyondCapacity(queue, limits)` with JavaScript short-circuit `||`:
the item-count test runs first, and `queueDataBytes` is only evaluated when
it fails. -/
def queueBeyondCapacity (limits : Limits) (queue : List QueueItem) :
    Except JsErr Bool :=
  if queue.length > limits.maxQueueItems then .ok true
  else (queueDataBytes queue).map (fun n => decide (n > limits.maxQueueData))

/-- The `while (queueBeyondCapacity(...)) abortCurrent()` loop of `addFrame`,
with explicit fuel for the iteration count. -/
def capLoop (limits : Limits) : Nat → OQ → Except JsErr (OQ × List SendEv)
  | 0, _ => .error .fuelOut
  | fuel + 1, st =>
    match queueBeyondCapacity limits st.queue with
    | .error _ => .error .typeErr
    | .ok false => .ok (st, [])
    | .ok true =>
      let (st', evs) := abortCurrent st
      match capLoop limits fuel st' with
      | .error e => .error e
      | .ok (st'', evs') => .ok (st'', evs ++ evs')

/-- `OutputQueue.addFrame(sender, info)`. -/
def addFrame (limits : Limits) (fuel : Nat) (st : OQ) (sender : String)
    (info : FrameInfo) : Except JsErr (OQ × List SendEv) :=
  if canSendFrom st.activeSender sender then
    match handleFrame st.activeSender sender info with
    | (a', evs, completed) =>
      if completed then
        let r := consumeQueue a' st.queue
        .ok (⟨r.active, r.queue⟩, evs ++ r.evs)
      else
        .ok (⟨a', st.queue⟩, evs)
  else
    capLoop limits fuel ⟨st.activeSender, st.queue ++ [⟨sender, info⟩]⟩

/-- `OutputQueue.add(sender, message)`: a single-frame text message. -/
def queueAddInfo (message : String) : FrameInfo :=
  { data := .str message, opcode := 0x01, continuation := false, fin := true }

/-- `OutputQueue.removeSender(sender)`: abort if the sender is active, else
filter its items out of the queue. -/
def removeSender (st : OQ) (sender : String) : OQ × List SendEv :=
  if some sender == st.activeSender then abortCurrent st
  else (⟨st.activeSender, st.queue.filter (fun it => it.sender != sender)⟩, [])

/-- `OutputQueue.closeSender(sender)`: `endsOpen` starts as "is the active
sender" and is overwritten by `!item.fin` for each queued item from the
sender (`item.fin` being a read on the `{sender, info}` wrapper); when it
ends up `true`, `removeSender` is invoked. -/
def closeSender (st : OQ) (sender : String) : OQ × List SendEv :=
  let endsOpen := st.queue.foldl
    (fun e it => if it.sender == sender then !(jsTruthy it.finProp) else e)
    (st.activeSender == some sender)
  if endsOpen then removeSender st sender else (st, [])

/- ## EchoChamber.js -/

/-- A peer record (`details`) as far as the claims need it: its assigned id,
join timestamp, the length of its output queue's waiting list
(`details.queue.queue.length`), and `headerLength` (positive while the peer
is mid-inbound-message). -/
structure Details where
  id : String
  joined : Int
  queueLen : Nat
  headerLength : Nat
  deriving DecidableEq, Repr

/-- `targetComparator(a, b)` from `EchoChamber.js`, with `Date.now()` passed
in as `now`.  The third tie-breaker computes both `aSending` and `bSending`
from `a.headerLength`, exactly as the source does. -/
def targetComparator (now : Int) (a b : Details) : Int :=
  let tm := now - 30000
  let aEstablished := decide (a.joined < tm)
  let bEstablished := decide (b.joined < tm)
  if aEstablished != bEstablished then
    (if aEstablished then -1 else 1)
  else
    let aAvailable := a.queueLen == 0
    let bAvailable := b.queueLen == 0
    if aAvailable != bAvailable then
      (if aAvailable then -1 else 1)
    else
      let aSending := decide (a.headerLength > 0)
      let bSending := decide (a.headerLength > 0)
      if aSending != bSending then
        (if aSending then 1 else -1)
      else 0

/-- `Chamber._pickOneTarget(exclude)`: filter out excluded ids, shuffle
(modelled by the function `shuf`, standing for the `Math.random`-driven
in-place shuffle), stable-sort by `targetComparator`, and take the first
element's id. -/
def pickOneTarget (conns : List Details) (exclude : List String)
    (shuf : List Details → List Details) (now : Int) : Option String :=
  let available := conns.filter (fun d => !(exclude.contains d.id))
  if available.isEmpty then none
  else
    (((shuf available).mergeSort
        (fun a b => decide (targetComparator now a b ≤ 0))).head?).map Details.id

/-- Chamber state: the insertion-ordered id → details map and the id
counter. -/
structure Chamber where
  connections : List (String × Details)
  idCounter : Nat
  deriving DecidableEq, Repr

/-- `Map.set(key, value)` on an insertion-ordered map: replace in place when
the key exists, append otherwise. -/
def mapSet (m : List (String × Details)) (k : String) (v : Details) :
    List (String × Details) :=
  if m.any (fun kv => kv.fst == k) then
    m.map (fun kv => if kv.fst == k then (k, v) else kv)
  else m ++ [(k, v)]

/-- `Chamber.add(newConnection)` from `src/EchoChamber.js` (lines 180–205):
create the details record with the next counter id, insert it, enqueue
`"H<new.id>"` to every other peer while accumulating the welcome message,
then enqueue the welcome to the joiner.  The returned list records each
`queue.add` call as `(peer id, frame info)` in order. -/
def chamberAddCore (ch : Chamber) (now : Int) :
    Chamber × List (String × FrameInfo) :=
  let newId := toString ch.idCounter
  let details : Details := { id := newId, joined := now, queueLen := 0, headerLength := 0 }
  let conns := mapSet ch.connections newId details
  let r := conns.foldl
    (fun (p : List (String × FrameInfo) × String) kv =>
      if kv.fst != newId then
        (p.fst ++ [(kv.fst, queueAddInfo ("H" ++ newId))], p.snd ++ ":H" ++ kv.fst)
      else p)
    ([], "I" ++ newId)
  ({ connections := conns, idCounter := ch.idCounter + 1 },
    r.fst ++ [(newId, queueAddInfo r.snd)])

/-- Outcome of the limits-aware `Chamber.add`. -/
inductive AddOutcome
  | close (code : Nat) (reason : String)
  | enqueued (evs : List (String × FrameInfo))
  deriving DecidableEq, Repr

/-- Modelled from the spec: the limits-aware revision of `EchoChamber.js`,
whose `Chamber.add` enforces `CHAMBER_MAX_CONNECTIONS`, is not part of the
source snapshot — only its callers (`EchoChamberHalls`, `bin/server.js`,
which pass a limits object with `CHAMBER_MAX_CONNECTIONS`) are.  Per the
spec: "Enforce `CHAMBER_MAX_CONNECTIONS` (reject with 1013)" and "a third
joiner is closed with code 1013 \"Chamber is full\""; on rejection no peer
record is added.  The admitted path is the `Chamber.add` body present in the
snapshot (`chamberAddCore`). -/
def chamberAdd (maxConnections : Nat) (ch : Chamber) (now : Int) :
    Chamber × AddOutcome :=
  if ch.connections.length ≥ maxConnections then
    (ch, .close 1013 "Chamber is full")
  else
    let (ch', evs) := chamberAddCore ch now
    (ch', .enqueued evs)

/-- `Set.add` on an insertion-ordered set of strings (no-op when present). -/
def setAdd (s : List String) (x : String) : List String :=
  if s.contains x then s else s ++ [x]

/-- JavaScript `String.split` with a single-character separator: an empty
string yields one empty piece, and a trailing separator yields a trailing
empty piece, as in the source language. -/
def splitOnChar (sep : Char) : List Char → List (List Char)
  | [] => [[]]
  | c :: rest =>
    if c = sep then [] :: splitOnChar sep rest
    else
      match splitOnChar sep rest with
      | [] => [[c]]
      | t :: ts => (c :: t) :: ts

/-- The first loop of `Chamber._parseHeader`: split the header line on `:`,
and for each item starting with `"T"` (`header.startsWith` then
`header.substr(1)`), add the comma-separated targets of the rest of the
item. -/
def rawTargets (line : String) : List String :=
  (splitOnChar ':' line.toList).foldl
    (fun ts header =>
      match header with
      | 'T' :: rest =>
        (splitOnChar ',' rest).foldl (fun ts t => setAdd ts (String.mk t)) ts
      | _ => ts)
    []

/-- The target-set policy of `Chamber._parseHeader`, applied to the parsed
target set: empty → all peers except the sender; contains `"**"` → all
peers; contains `"*"` → drop the sentinel, remember whether the sender was
listed, temporarily add the sender, pick one extra target excluding the
current set, and remove the sender again unless it was listed; otherwise the
literal set. -/
def computeTargets (keys : List String) (selfId : String) (raw : List String)
    (pick : List String → Option String) : List String :=
  if raw.isEmpty then
    keys.foldl (fun ts id => if id != selfId then setAdd ts id else ts) []
  else if raw.contains "**" then
    keys.foldl setAdd []
  else if raw.contains "*" then
    let ts := raw.filter (fun t => t != "*")
    let hadSelf := ts.contains selfId
    let ts := setAdd ts selfId
    let ts := match pick ts with
      | some t => setAdd ts t
      | none => ts
    if !hadSelf then ts.filter (fun t => t != selfId) else ts
  else raw

/-- Scan for the first newline (`data.indexOf`): the characters before it,
or `none` when no newline is present (`_parseHeader` returns `false`, "wait
for more data"). -/
def headerLineChars : List Char → Option (List Char)
  | [] => none
  | c :: rest =>
    if c = '\n' then some []
    else (headerLineChars rest).map (fun l => c :: l)

/-- The header line of an inbound message, as a string. -/
def headerLine (data : String) : Option String :=
  (headerLineChars data.toList).map (fun cs => String.mk cs)

/-- `Chamber._parseHeader(details, data)`: on success, the computed
`currentTargets` and `headerLength` (position of the newline plus one). -/
def parseHeader (conns : List (String × Details)) (selfId : String)
    (shuf : List Details → List Details) (now : Int) (data : String) :
    Option (List String × Nat) :=
  (headerLine data).map
    (fun line =>
      (computeTargets (conns.map Prod.fst) selfId (rawTargets line)
          (fun ex => pickOneTarget (conns.map Prod.snd) ex shuf now),
        line.utf8ByteSize + 1))

/- ## Claims -/

/-- C2: the claim states that `closeSender(s)` leaves the queue unchanged
when `s`'s last queued frame has `fin = true`.  Evaluating the code at such a
state shows otherwise: with `"a"` active and a single completed
(`fin = true`) queued message from `"b"`, `closeSender "b"` removes the item of `"b"`, because `endsOpen` is computed from `item.fin` — a read on the
`{sender, info}` wrapper, which yields `undefined` — so it is `true` for any
queued item from the sender regardless of its actual `fin` flag. -/
theorem closeSender_drops_finned_queued_message :
    closeSender ⟨some "a", [⟨"b", ⟨.str "hello", 0x01, false, true⟩⟩]⟩ "b"
      = (⟨some "a", []⟩, []) := by
  decide

/-- C3: the claim states that write-then-read reproduces every length in the
test set, including 65536.  Evaluating the code at `L = 65536` shows the
64-bit branch writes `lengthH = 65536` (JavaScript `dataLength >>> 32` has
shift count 32 mod 32 = 0, so it returns `dataLength` itself), so the parsed
total `lengthH * 2^32 + lengthL` is not 65536; and at `L = 2^32` the second
`writeUInt32BE` throws a RangeError. -/
theorem frameHeader_roundtrip_breaks_at_65536 :
    writeFrameHeader 0x01 65536 true = .ok [0x81, 127, 0, 1, 0, 0, 0, 1, 0, 0]
    ∧ (readFrameHeader [0x81, 127, 0, 1, 0, 0, 0, 1, 0, 0]).map
        (fun h => (h.fin, h.opcode, h.lengthH, h.lengthL))
      = some (true, 0x01, 65536, 65536)
    ∧ 65536 * 2 ^ 32 + 65536 ≠ 65536
    ∧ writeFrameHeader 0x01 (2 ^ 32) true = .error .rangeErr := by
  refine ⟨rfl, rfl, by decide, rfl⟩

/-- C4: the claim states that when two peers tie on the first two comparison
keys, `targetComparator` orders the peer that is mid-inbound-message
(`headerLength > 0`) strictly after the other.  Evaluating the code on two
such peers (both established, both with empty queues, one with
`headerLength = 5`) yields 0 in both argument orders: the source computes
`bSending` from `a.headerLength`, so the third tie-breaker never
discriminates. -/
theorem targetComparator_ignores_sending_tiebreak :
    targetComparator 100000 ⟨"0", 0, 0, 0⟩ ⟨"1", 0, 0, 5⟩ = 0
    ∧ targetComparator 100000 ⟨"1", 0, 0, 5⟩ ⟨"0", 0, 0, 0⟩ = 0 := by
  refine ⟨by decide, by decide⟩

/-- C6: the claim states that after every `addFrame` the queue satisfies
both caps.  Evaluating the code at the first state that ever enqueues (an
active sender `"a"`, empty queue, default limits `MAX_QUEUE_ITEMS = 1024`,
`MAX_QUEUE_DATA = 128·1024`, and a frame from `"b"`): the push makes the
queue length 1 ≤ 1024, so `queueBeyondCapacity` evaluates `queueDataBytes`,
which reads `item.data.length` on the `{sender, info}` item — `item.data` is
`undefined`, so the read throws a TypeError and `addFrame` never returns
normally. -/
theorem addFrame_enqueue_throws_typeError :
    addFrame ⟨1024, 131072⟩ 5 ⟨some "a", []⟩ "b" ⟨.str "m", 0x01, false, true⟩
      = .error .typeErr := by
  rfl

/-- C5: after `abortCurrent` on a queue with a non-null active sender, the
next two frames written are exactly a zero-length continuation with
`fin = true` followed by the single-frame text message `"X"`; and a
continuation frame handled while `activeSender` is null is silently
discarded (no frame written, state unchanged, result `false`). -/
theorem abortCurrent_truncation_and_discard :
    (∀ st : OQ, st.activeSender.isSome = true →
      (abortCurrent st).snd.take 2
        = [⟨0x00, .null, true⟩, ⟨0x01, .str "X", true⟩])
    ∧ (∀ (sender : String) (info : FrameInfo), info.continuation = true →
        handleFrame none sender info = (none, [], false)) := by
  constructor
  · intro st h
    rcases heq : st.activeSender with _ | s
    · rw [heq] at h; simp at h
    · simp [abortCurrent, heq]
  · intro sender info h
    simp [handleFrame, h]

theorem abortCurrent_truncation_and_discard_witness :
    (abortCurrent ⟨some "a", [⟨"b", ⟨.str "q", 0x01, false, true⟩⟩]⟩).snd.take 2
      = [⟨0x00, .null, true⟩, ⟨0x01, .str "X", true⟩]
    ∧ handleFrame none "b" ⟨.buf [1], 0x01, true, false⟩ = (none, [], false) :=
  ⟨abortCurrent_truncation_and_discard.1 ⟨some "a", [⟨"b", ⟨.str "q", 0x01, false, true⟩⟩]⟩ rfl,
   abortCurrent_truncation_and_discard.2 "b" ⟨.buf [1], 0x01, true, false⟩ rfl⟩

/-- C1: a `Chamber.add` call on a chamber already holding
`CHAMBER_MAX_CONNECTIONS` peers closes the joining connection with 1013
"Chamber is full" and changes nothing: no peer record is added and no
message is enqueued to the existing peers. -/
theorem chamberAdd_rejects_when_full (maxConnections : Nat) (ch : Chamber)
    (now : Int) (h : ch.connections.length ≥ maxConnections) :
    chamberAdd maxConnections ch now = (ch, .close 1013 "Chamber is full") := by
  simp [chamberAdd, h]

theorem chamberAdd_rejects_when_full_witness :
    chamberAdd 2 ⟨[("0", ⟨"0", 0, 0, 0⟩), ("1", ⟨"1", 0, 0, 0⟩)], 2⟩ 50
      = (⟨[("0", ⟨"0", 0, 0, 0⟩), ("1", ⟨"1", 0, 0, 0⟩)], 2⟩,
         .close 1013 "Chamber is full") :=
  chamberAdd_rejects_when_full 2 ⟨[("0", ⟨"0", 0, 0, 0⟩), ("1", ⟨"1", 0, 0, 0⟩)], 2⟩ 50
    (by decide)

theorem writeFrameHeader_ok_of_lt (opcode len : Nat) (fin : Bool)
    (h : len < 2 ^ 32) :
    ∃ hb, writeFrameHeader opcode len fin = .ok hb := by
  have h' : len < 4294967296 := by
    have : (2 : Nat) ^ 32 = 4294967296 := by norm_num
    omega
  unfold writeFrameHeader
  by_cases h1 : len < 126
  · exact ⟨[(if fin then 0x80 else 0x00) ||| opcode, len], by rw [if_pos h1]⟩
  · by_cases h2 : len < 0x10000
    · exact ⟨[(if fin then 0x80 else 0x00) ||| opcode, 126] ++ writeUInt16BE len,
        by rw [if_neg h1, if_pos h2]⟩
    · have hmod : jsShrU len 32 = len := by
        unfold jsShrU
        simp [Nat.mod_eq_of_lt h']
      have hle : ¬ len > 0xFFFFFFFF := by omega
      refine ⟨[(if fin then 0x80 else 0x00) ||| opcode, 127]
          ++ [len / 2 ^ 24 % 256, len / 2 ^ 16 % 256, len / 2 ^ 8 % 256, len % 256]
          ++ [len / 2 ^ 24 % 256, len / 2 ^ 16 % 256, len / 2 ^ 8 % 256, len % 256], ?_⟩
      rw [if_neg h1, if_neg h2, hmod]
      unfold writeUInt32BE
      rw [if_neg hle]
      rfl

/-- C10 counterexample: the claim states that for non-control opcodes
arbitrarily large payloads are written.  A non-control `sendFrame` call on an
open connection with payload length 2^32 (expressed through the numeric
length-only form of the `data` argument) throws a RangeError from the header
writer instead of writing. -/
theorem sendFrame_large_nonControl_throws_rangeErr :
    sendFrame false 0x02 (.num (2 ^ 32)) true = .error .rangeErr := by
  rfl

/-- C10 (amended): on a non-closed connection, a control-opcode `sendFrame`
with payload length over 125 throws "Message too long for command frame" and
writes nothing; no such check applies to non-control opcodes, and every
payload of length below 2^32 is written (header bytes, then the payload) —
lengths of 2^32 and above instead throw a RangeError in the header writer
(see the counterexample). -/
theorem sendFrame_control_limit_and_data_written :
    (∀ (opcode : Nat) (data : JsData) (fin : Bool),
        opcode &&& 0x08 ≠ 0 → dataLen data > 125 →
        sendFrame false opcode data fin = .error .tooLong)
    ∧ (∀ (opcode : Nat) (bs : List Nat) (fin : Bool),
        opcode &&& 0x08 = 0 → bs.length < 2 ^ 32 →
        ∃ hb, writeFrameHeader opcode bs.length fin = .ok hb
          ∧ sendFrame false opcode (.buf bs) fin
              = .ok [.bytes hb, .payload (.buf bs)]) := by
  constructor
  · intro opcode data fin hc hlen
    simp [sendFrame, hc, hlen]
  · intro opcode bs fin hc hlen
    obtain ⟨hb, hw⟩ := writeFrameHeader_ok_of_lt opcode bs.length fin hlen
    refine ⟨hb, hw, ?_⟩
    simp [sendFrame, hc, dataLen, hw]

theorem sendFrame_control_limit_and_data_written_witness :
    sendFrame false 0x09 (.num 126) true = .error .tooLong
    ∧ ∃ hb, writeFrameHeader 0x02 3 true = .ok hb
        ∧ sendFrame false 0x02 (.buf [1, 2, 3]) true
            = .ok [.bytes hb, .payload (.buf [1, 2, 3])] :=
  ⟨sendFrame_control_limit_and_data_written.1 0x09 (.num 126) true (by decide) (by decide),
   sendFrame_control_limit_and_data_written.2 0x02 [1, 2, 3] true (by decide) (by decide)⟩

theorem unmaskChunkAux_shift (mask : List Nat) (l : List Nat) :
    ∀ (p i : Nat), unmaskChunkAux mask p i l = unmaskChunkAux mask (p + i) 0 l := by
  induction l with
  | nil => intro p i; rfl
  | cons b rest ih =>
    intro p i
    simp only [unmaskChunkAux, Nat.add_zero, Nat.zero_add]
    congr 1
    rw [ih p (i + 1), ih (p + i) 1, Nat.add_assoc]

theorem unmaskChunk_cons (mask : List Nat) (p b : Nat) (l : List Nat) :
    unmaskChunk mask p (b :: l)
      = (b ^^^ mask.getD (p % 4) 0) :: unmaskChunk mask (p + 1) l := by
  unfold unmaskChunk
  simp only [unmaskChunkAux, Nat.add_zero, Nat.zero_add]
  congr 1
  exact unmaskChunkAux_shift mask l p 1

theorem unmaskChunk_append (mask : List Nat) (l1 : List Nat) :
    ∀ (l2 : List Nat) (p : Nat),
      unmaskChunk mask p (l1 ++ l2)
        = unmaskChunk mask p l1 ++ unmaskChunk mask (p + l1.length) l2 := by
  induction l1 with
  | nil => intro l2 p; simp [unmaskChunk, unmaskChunkAux]
  | cons b rest ih =>
    intro l2 p
    simp only [List.cons_append, unmaskChunk_cons, List.length_cons]
    rw [ih l2 (p + 1), show p + 1 + rest.length = p + (rest.length + 1) from by omega]

theorem unmaskChunk_congr_mod (mask : List Nat) (l : List Nat) :
    ∀ (p q : Nat), p % 4 = q % 4 →
      unmaskChunk mask p l = unmaskChunk mask q l := by
  induction l with
  | nil => intro p q _; rfl
  | cons b rest ih =>
    intro p q hpq
    rw [unmaskChunk_cons, unmaskChunk_cons, hpq, ih (p + 1) (q + 1) (by omega)]

theorem unmaskChunks_eq_flatten (mask : List Nat) (cs : List (List Nat)) :
    ∀ (p : Nat), unmaskChunks mask p cs = unmaskChunk mask p cs.flatten := by
  induction cs with
  | nil => intro p; rfl
  | cons c rest ih =>
    intro p
    simp only [unmaskChunks, List.flatten_cons, unmaskChunk_append]
    rw [ih ((p + c.length) % 4),
      unmaskChunk_congr_mod mask rest.flatten ((p + c.length) % 4) (p + c.length)
        (by omega)]

theorem unmaskChunk_invol (mask : List Nat) (l : List Nat) :
    ∀ (p : Nat), unmaskChunk mask p (unmaskChunk mask p l) = l := by
  induction l with
  | nil => intro p; rfl
  | cons b rest ih =>
    intro p
    rw [unmaskChunk_cons, unmaskChunk_cons, ih (p + 1)]
    congr 1
    rw [Nat.xor_assoc, Nat.xor_self, Nat.xor_zero]

/-- C9: the read path's unmask loop is an involution — for every payload and
mask, masking (XOR of each byte with `mask[(cursor + i) & 3]`, cursor 0) and
then running the chunked unmask over any split of the masked bytes (cursor
advancing mod 4 across chunks) yields the payload again. -/
theorem mask_roundtrip :
    (∀ (mask payload : List Nat) (chunks : List (List Nat)),
        chunks.flatten = unmaskChunk mask 0 payload →
        unmaskChunks mask 0 chunks = payload)
    ∧ (∀ (mask : List Nat) (p : Nat) (l : List Nat),
        unmaskChunk mask p (unmaskChunk mask p l) = l) := by
  constructor
  · intro mask payload chunks hjoin
    rw [unmaskChunks_eq_flatten, hjoin, unmaskChunk_invol]
  · intro mask p l
    exact unmaskChunk_invol mask l p

theorem mask_roundtrip_witness :
    unmaskChunks [1, 2, 3, 4] 0 [[4], [4, 4]] = [5, 6, 7]
    ∧ unmaskChunk [7, 7, 7, 7] 2 (unmaskChunk [7, 7, 7, 7] 2 [9, 8]) = [9, 8] :=
  ⟨mask_roundtrip.1 [1, 2, 3, 4] [5, 6, 7] [[4], [4, 4]] (by decide),
   mask_roundtrip.2 [7, 7, 7, 7] 2 [9, 8]⟩

theorem mapSet_append (m : List (String × Details)) (k : String) (v : Details)
    (h : ∀ kv ∈ m, kv.fst ≠ k) : mapSet m k v = m ++ [(k, v)] := by
  unfold mapSet
  rw [if_neg]
  simp only [List.any_eq_true, beq_iff_eq, not_exists]
  intro kv
  intro hand
  exact h kv hand.1 hand.2

theorem chamberAddLoop_eq (newId : String) :
    ∀ (old : List (String × Details)),
      (∀ kv ∈ old, kv.fst ≠ newId) →
      ∀ (evs : List (String × FrameInfo)) (w : String),
      old.foldl
        (fun (p : List (String × FrameInfo) × String) kv =>
          if kv.fst != newId then
            (p.fst ++ [(kv.fst, queueAddInfo ("H" ++ newId))], p.snd ++ ":H" ++ kv.fst)
          else p)
        (evs, w)
      = (evs ++ old.map (fun kv => (kv.fst, queueAddInfo ("H" ++ newId))),
         old.foldl (fun s kv => s ++ ":H" ++ kv.fst) w) := by
  intro old
  induction old with
  | nil => intro _ evs w; simp
  | cons kv rest ih =>
    intro h evs w
    have hk : (kv.fst != newId) = true := by
      simpa using h kv (List.mem_cons_self kv rest)
    simp only [List.foldl_cons, hk, if_true]
    rw [ih (fun x hx => h x (List.mem_cons_of_mem kv hx))]
    simp [List.append_assoc]

/-- C7: when a connection joins a chamber whose keys do not yet include the
fresh counter id, the recorded `queue.add` calls are: exactly one
single-frame text message `"H<new.id>"` to each existing peer, in insertion
order, followed (last) by one single-frame text message to the joiner whose
payload is `"I<new.id>"` extended by `":H<p.id>"` for each existing peer —
so the broadcasts to existing peers are enqueued before the welcome
message. -/
theorem chamberAddCore_join_events (ch : Chamber) (now : Int)
    (h : ∀ kv ∈ ch.connections, kv.fst ≠ toString ch.idCounter) :
    (chamberAddCore ch now).snd
      = ch.connections.map
          (fun kv => (kv.fst, queueAddInfo ("H" ++ toString ch.idCounter)))
        ++ [(toString ch.idCounter,
             queueAddInfo
               (ch.connections.foldl (fun s kv => s ++ ":H" ++ kv.fst)
                 ("I" ++ toString ch.idCounter)))] := by
  simp only [chamberAddCore]
  rw [mapSet_append _ _ _ h, List.foldl_append, chamberAddLoop_eq _ _ h]
  simp

theorem chamberAddCore_join_events_witness :
    (chamberAddCore ⟨[("0", ⟨"0", 0, 0, 0⟩), ("1", ⟨"1", 0, 0, 0⟩)], 2⟩ 50).snd
      = [("0", queueAddInfo "H2"), ("1", queueAddInfo "H2"),
         ("2", queueAddInfo "I2:H0:H1")] := by
  rw [chamberAddCore_join_events _ 50 (by decide)]
  rfl

theorem mem_setAdd (s : List String) (x y : String) :
    y ∈ setAdd s x ↔ y ∈ s ∨ y = x := by
  by_cases hx : s.contains x = true
  · have hxm : x ∈ s := by simpa using hx
    simp only [setAdd, hx, if_true]
    constructor
    · exact Or.inl
    · rintro (h | rfl)
      · exact h
      · exact hxm
  · have hx' : x ∉ s := by simpa using hx
    simp [setAdd, hx']

theorem mem_foldl_setAdd (keys : List String) :
    ∀ (acc : List String) (y : String),
      y ∈ keys.foldl setAdd acc ↔ y ∈ acc ∨ y ∈ keys := by
  induction keys with
  | nil => simp
  | cons k ks ih =>
    intro acc y
    simp only [List.foldl_cons, ih (setAdd acc k) y, mem_setAdd, List.mem_cons]
    tauto

theorem mem_foldl_setAdd_ne (keys : List String) (selfId : String) :
    ∀ (acc : List String) (y : String),
      y ∈ keys.foldl (fun ts id => if id != selfId then setAdd ts id else ts) acc
        ↔ y ∈ acc ∨ (y ∈ keys ∧ y ≠ selfId) := by
  induction keys with
  | nil => simp
  | cons k ks ih =>
    intro acc y
    by_cases hk : k = selfId
    · subst hk
      simp only [List.foldl_cons, bne_self_eq_false, Bool.false_eq_true,
        if_false, ih acc y, List.mem_cons]
      tauto
    · have hk' : (k != selfId) = true := by simpa using hk
      simp only [List.foldl_cons, hk', if_true, ih (setAdd acc k) y,
        mem_setAdd, List.mem_cons]
      constructor
      · rintro ((h | rfl) | ⟨hks, hne⟩)
        · exact Or.inl h
        · exact Or.inr ⟨Or.inl rfl, hk⟩
        · exact Or.inr ⟨Or.inr hks, hne⟩
      · rintro (h | ⟨rfl | hks, hne⟩)
        · exact Or.inl (Or.inl h)
        · exact Or.inl (Or.inr rfl)
        · exact Or.inr ⟨hks, hne⟩

theorem computeTargets_self_mem (keys : List String) (selfId : String)
    (raw : List String) (pick : List String → Option String)
    (hself : selfId ∈ computeTargets keys selfId raw pick) :
    "**" ∈ raw ∨ selfId ∈ raw := by
  unfold computeTargets at hself
  by_cases he : raw.isEmpty
  · rw [if_pos he] at hself
    rw [mem_foldl_setAdd_ne] at hself
    simp at hself
  · rw [if_neg he] at hself
    by_cases hss : raw.contains "**" = true
    · exact Or.inl (by simpa using hss)
    · rw [if_neg (by simpa using hss)] at hself
      by_cases hs : raw.contains "*" = true
      · rw [if_pos (by simpa using hs)] at hself
        by_cases hhad : (raw.filter (fun t => t != "*")).contains selfId = true
        · refine Or.inr ?_
          have hm : selfId ∈ raw.filter (fun t => t != "*") := by simpa using hhad
          exact (List.mem_filter.mp hm).1
        · exfalso
          simp only [hhad, Bool.not_false, if_true] at hself
          have := (List.mem_filter.mp hself).2
          simp at this
      · rw [if_neg (by simpa using hs)] at hself
        exact Or.inr hself

theorem computeTargets_no_targets (keys : List String) (selfId : String)
    (pick : List String → Option String) (id : String) :
    id ∈ computeTargets keys selfId [] pick ↔ id ∈ keys ∧ id ≠ selfId := by
  unfold computeTargets
  rw [if_pos (by simp)]
  rw [mem_foldl_setAdd_ne]
  simp

theorem computeTargets_allstar (keys : List String) (selfId : String)
    (raw : List String) (pick : List String → Option String)
    (hmem : "**" ∈ raw) (id : String) :
    id ∈ computeTargets keys selfId raw pick ↔ id ∈ keys := by
  have hne : raw.isEmpty = false := by
    cases raw with
    | nil => simp at hmem
    | cons a l => simp
  have hc : raw.contains "**" = true := by simpa using hmem
  unfold computeTargets
  rw [if_neg (by simp [hne]), if_pos (by simpa using hc)]
  rw [mem_foldl_setAdd]
  simp

/-- C8: for every inbound message header successfully parsed by
`_parseHeader`, the sender id belongs to the computed target set only if the
raw target list contains `"**"` or explicitly lists the sender id; an empty
raw target list yields exactly the peers other than the sender; and a list
containing `"**"` yields exactly all peers, sender included. -/
theorem parseHeader_self_membership
    (conns : List (String × Details)) (selfId : String)
    (shuf : List Details → List Details) (now : Int) (data line : String)
    (ts : List String) (hl : Nat)
    (hline : headerLine data = some line)
    (h : parseHeader conns selfId shuf now data = some (ts, hl)) :
    (selfId ∈ ts → "**" ∈ rawTargets line ∨ selfId ∈ rawTargets line)
    ∧ (rawTargets line = [] →
        ∀ id, id ∈ ts ↔ id ∈ conns.map Prod.fst ∧ id ≠ selfId)
    ∧ ("**" ∈ rawTargets line →
        ∀ id, id ∈ ts ↔ id ∈ conns.map Prod.fst) := by
  unfold parseHeader at h
  rw [hline] at h
  simp only [Option.map_some', Option.some.injEq, Prod.mk.injEq] at h
  obtain ⟨h1, _⟩ := h
  subst h1
  refine ⟨?_, ?_, ?_⟩
  · intro hself
    exact computeTargets_self_mem _ _ _ _ hself
  · intro hraw id
    rw [hraw]
    exact computeTargets_no_targets _ _ _ _
  · intro hmem id
    exact computeTargets_allstar _ _ _ _ hmem _

theorem parseHeader_self_membership_witness :
    ("0" ∈ ["0", "1", "2"] → "**" ∈ rawTargets "T**" ∨ "0" ∈ rawTargets "T**")
    ∧ (rawTargets "T**" = [] →
        ∀ id, id ∈ ["0", "1", "2"]
          ↔ id ∈ ([("0", ⟨"0", 0, 0, 0⟩), ("1", ⟨"1", 0, 0, 0⟩),
              ("2", ⟨"2", 0, 0, 0⟩)] : List (String × Details)).map Prod.fst
            ∧ id ≠ "0")
    ∧ ("**" ∈ rawTargets "T**" →
        ∀ id, id ∈ ["0", "1", "2"]
          ↔ id ∈ ([("0", ⟨"0", 0, 0, 0⟩), ("1", ⟨"1", 0, 0, 0⟩),
              ("2", ⟨"2", 0, 0, 0⟩)] : List (String × Details)).map Prod.fst) :=
  parseHeader_self_membership
    [("0", ⟨"0", 0, 0, 0⟩), ("1", ⟨"1", 0, 0, 0⟩), ("2", ⟨"2", 0, 0, 0⟩)]
    "0" id 100000 "T**\nhi" "T**" ["0", "1", "2"] 4 (by rfl) (by rfl)
